import Mathlib

/-!
Shallow embedding of `archive/compression/compression.go` (package
`compression`, vendored from containerd): compression-format detection and
the stream adapters `DecompressStream` / `CompressStream`, together with the
`sync.Pool` of 32 KiB `bufio.Reader`s and the close discipline of the
returned wrappers.

Bytes are modelled as `Nat`, byte slices as `List Nat`.  An input stream is
its full byte content plus the terminal condition of the underlying reader
(clean end of stream, or a non-EOF read error).  The shared buffer pool is
passed explicitly as a list of free buffers; `sync.Pool.Get` pops the head
(or allocates a fresh buffer) and `Put` pushes.
-/

set_option autoImplicit false

namespace compression

/-- Go: `type Compression int`.  The named constants are `Uncompressed = 0`
and `Gzip = 1`; other integer values are representable but unregistered. -/
abbrev Compression := Nat

/-- Go: `Uncompressed Compression = iota` (value 0). -/
def Uncompressed : Compression := 0

/-- Go: `Gzip` (value 1). -/
def Gzip : Compression := 1

/-- Go: `func (compression *Compression) Extension() string` — `"gz"` for
`Gzip`, otherwise the empty string (the `switch` has no other case and
falls through to `return ""`). -/
def Extension (compression : Compression) : String :=
  if compression = Gzip then "gz" else ""

/-- The gzip magic prefix `{Gzip: {0x1F, 0x8B, 0x08}}` registered in
`DetectCompression`'s signature map. -/
def gzipSignature : List Nat := [0x1F, 0x8B, 0x08]

/-- The signature map of `DetectCompression`, as an association list.  The
Go map literal has this single entry. -/
def signatureRegistry : List (Compression × List Nat) := [(Gzip, gzipSignature)]

/-- The loop body of `DetectCompression`, iterating the registry in a given
order: skip a signature `m` when `len(source) < len(m)`, return its kind on
`bytes.Equal(m, source[:len(m)])`, and fall through to `Uncompressed`. -/
def detectWithOrder : List (Compression × List Nat) → List Nat → Compression
  | [], _ => Uncompressed
  | (compression, m) :: rest, source =>
    if source.length < m.length then detectWithOrder rest source
    else if source.take m.length = m then compression
    else detectWithOrder rest source

/-- Go: `func DetectCompression(source []byte) Compression`.  The map has a
single entry, so the (otherwise unspecified) map iteration order is the
singleton order. -/
def DetectCompression (source : List Nat) : Compression :=
  detectWithOrder signatureRegistry source

/-- A caller-supplied `io.Reader`: the bytes it will deliver, and what the
reader reports once they are exhausted — `none` models a clean `io.EOF`,
`some msg` a non-EOF read error. -/
structure InputStream where
  content : List Nat
  readErr : Option String
deriving DecidableEq

/-- A pooled `bufio.Reader`: its fixed buffer size and the underlying
stream it is currently attached to (`none` after `Reset(nil)`). -/
structure PeekBuffer where
  size : Nat
  attached : Option InputStream
deriving DecidableEq

/-- The pool's `New` function: `bufio.NewReaderSize(nil, 32*1024)`. -/
def newPeekBuffer : PeekBuffer := { size := 32 * 1024, attached := none }

/-- Go: `bufioReader32KPool.Get()` — pop a free buffer, or allocate via `New`. -/
def poolGet : List PeekBuffer → PeekBuffer × List PeekBuffer
  | [] => (newPeekBuffer, [])
  | b :: rest => (b, rest)

/-- Go: `bufioReader32KPool.Put(buf)`. -/
def poolPut (buf : PeekBuffer) (pool : List PeekBuffer) : List PeekBuffer :=
  buf :: pool

/-- Go: `buf.Reset(r)` — discard any buffered data and attach the reader `r`
(`none` for `Reset(nil)`). -/
def bufReset (buf : PeekBuffer) (r : Option InputStream) : PeekBuffer :=
  { buf with attached := r }

/-- Outcome of `bufio.Reader.Peek` when fewer bytes than requested are
available: `io.EOF`, or the underlying reader's non-EOF error. -/
inductive PeekOutcome where
  | eof
  | ioErr (msg : String)
deriving DecidableEq

/-- Behavior of `buf.Peek(n)` on a buffer attached to `s`: returns the first `n` bytes
without consuming them, together with the error when fewer than `n` were
available (`io.EOF` on clean end of stream, else the reader's error). -/
def bufPeek (s : InputStream) (n : Nat) : List Nat × Option PeekOutcome :=
  if n ≤ s.content.length then (s.content.take n, none)
  else
    match s.readErr with
    | none => (s.content.take n, some PeekOutcome.eof)
    | some e => (s.content.take n, some (PeekOutcome.ioErr e))

/-- Errors of the external gzip codec's decoder constructor. -/
inductive GzipErr where
  | errHeader
  | unexpectedEOF
deriving DecidableEq

/-- Modelled from the spec: the decoding stream produced by the external
gzip codec (the codec implementation is outside this repository).  It
records the decoded payload it will deliver and whether its own `Close`
has been called. -/
structure GzipReader where
  payload : List Nat
  closed : Bool
deriving DecidableEq

/-- Modelled from the spec: the external codec's decoder constructor
(`gzip.NewReader`), which "fails on malformed header".  A gzip member
starts with a 10-byte header whose first three bytes are `1F 8B 08`; a
shorter input fails with an unexpected end of stream and a wrong
magic/method fails with a header error.  The body transformation is the
codec's own concern and is modelled as the identity on the member body. -/
def gzipNewReader (input : List Nat) : Except GzipErr GzipReader :=
  if input.length < 10 then Except.error GzipErr.unexpectedEOF
  else if input.take 3 = gzipSignature then
    Except.ok { payload := input.drop 10, closed := false }
  else Except.error GzipErr.errHeader

/-- Modelled from the spec: the external codec's encoder
(`gzip.NewWriter` followed by a close-time flush), emitting a 10-byte
header beginning `1F 8B 08` followed by the (identity-modelled) body. -/
def gzipEncode (p : List Nat) : List Nat :=
  gzipSignature ++ [0, 0, 0, 0, 0, 0, 0xFF] ++ p

/-- The `readCloserWrapper` returned by `DecompressStream`: the embedded
reader is either the `bufio.Reader` itself (uncompressed case) or a gzip
decoder built on top of it; `compression` is the detected kind; `hasCloser`
records whether the `closer` field is non-nil. -/
structure readCloserWrapper where
  buf : PeekBuffer
  gz : Option GzipReader
  compression : Compression
  hasCloser : Bool
deriving DecidableEq

/-- Go: `func (r *readCloserWrapper) GetCompression() Compression`. -/
def GetCompression (r : readCloserWrapper) : Compression :=
  r.compression

/-- The bytes obtained by reading the wrapper to exhaustion: the gzip
decoder's payload when one was constructed, otherwise the attached
stream's content read through the buffer. -/
def wrapperContent (r : readCloserWrapper) : List Nat :=
  match r.gz with
  | some g => g.payload
  | none =>
    match r.buf.attached with
    | some s => s.content
    | none => []

/-- Go: `func (r *readCloserWrapper) Close() error`, with the `closer`
installed by `DecompressStream`: `buf.Reset(nil); bufioReader32KPool.Put(buf);
return nil`.  Returns the close error, the wrapper afterwards, and the pool
afterwards.  Note the closer touches only the buffer, never `r.gz`. -/
def wrapperClose (r : readCloserWrapper) (pool : List PeekBuffer) :
    Option String × readCloserWrapper × List PeekBuffer :=
  if r.hasCloser then
    let buf2 := bufReset r.buf none
    (none, { r with buf := buf2 }, poolPut buf2 pool)
  else (none, r, pool)

/-- Errors of `DecompressStream`: the propagated non-EOF peek error, the
propagated `gzip.NewReader` error, or the `fmt.Errorf` of the default
switch branch. -/
inductive DecompressErr where
  | peekErr (msg : String)
  | gzipErr (e : GzipErr)
  | unsupported (msg : String)
deriving DecidableEq

/-- Go: `func DecompressStream(archive io.Reader) (DecompressReadCloser, error)`.
State-passing over the shared pool: `Get` a buffer, `Reset(archive)`,
`Peek(10)`; a non-EOF peek error returns immediately (`io.EOF` is ignored);
then switch on `DetectCompression` of the peeked bytes — `Uncompressed`
wraps the buffer itself, `Gzip` wraps a `gzip.NewReader` over the buffer
(whose construction error also returns immediately), anything else is the
unsupported-format error.  Both success wrappers carry the same `closer`. -/
def DecompressStream (archive : InputStream) (pool : List PeekBuffer) :
    Except DecompressErr readCloserWrapper × List PeekBuffer :=
  let got := poolGet pool
  let buf := bufReset got.1 (some archive)
  let pool1 := got.2
  let p := bufPeek archive 10
  match p.2 with
  | some (PeekOutcome.ioErr e) => (Except.error (DecompressErr.peekErr e), pool1)
  | _ =>
    let compression := DetectCompression p.1
    if compression = Uncompressed then
      (Except.ok { buf := buf, gz := none, compression := compression, hasCloser := true }, pool1)
    else if compression = Gzip then
      match gzipNewReader archive.content with
      | Except.error e => (Except.error (DecompressErr.gzipErr e), pool1)
      | Except.ok gz =>
        (Except.ok { buf := buf, gz := some gz, compression := compression, hasCloser := true }, pool1)
    else
      (Except.error (DecompressErr.unsupported
        (String.append "unsupported compression format " (Extension compression))), pool1)

/-- The write-closer returned by `CompressStream`: the pass-through
`writeCloserWrapper` with nil closer, or a `gzip.NewWriter` over `dest`. -/
inductive WriteCloser where
  | writeCloserWrapper
  | gzipWriter
deriving DecidableEq

/-- Error of `CompressStream`'s default branch. -/
inductive CompressErr where
  | unsupported (msg : String)
deriving DecidableEq

/-- Go: `func CompressStream(dest io.Writer, compression Compression)`.
The destination takes no part in the dispatch; the bytes it ends up holding
are given by `writeAll`. -/
def CompressStream (compression : Compression) : Except CompressErr WriteCloser :=
  if compression = Uncompressed then Except.ok WriteCloser.writeCloserWrapper
  else if compression = Gzip then Except.ok WriteCloser.gzipWriter
  else Except.error (CompressErr.unsupported
    (String.append "unsupported compression format " (Extension compression)))

/-- The bytes present at `dest` after writing `p` through the returned
write-closer and closing it: the pass-through wrapper forwards `p`
unchanged; the gzip writer emits the encoded member. -/
def writeAll (w : WriteCloser) (p : List Nat) : List Nat :=
  match w with
  | WriteCloser.writeCloserWrapper => p
  | WriteCloser.gzipWriter => gzipEncode p

/-! ### Basic facts about the detector, the peek, and the adapters -/

/-- Closed form of `DetectCompression`: the registry holds the single
3-byte gzip signature, so detection is a prefix test against it. -/
theorem DetectCompression_eq (source : List Nat) :
    DetectCompression source =
      if source.length < 3 then Uncompressed
      else if source.take 3 = gzipSignature then Gzip else Uncompressed := rfl

/-- The detector only ever answers with a registered kind or `Uncompressed`. -/
theorem DetectCompression_cases (source : List Nat) :
    DetectCompression source = Uncompressed ∨ DetectCompression source = Gzip := by
  rw [DetectCompression_eq]
  split
  · exact Or.inl rfl
  · split
    · exact Or.inr rfl
    · exact Or.inl rfl

/-- The bytes handed back by `Peek(n)` are always the first `n` bytes of
the attached stream, whatever the error outcome. -/
theorem bufPeek_fst (s : InputStream) (n : Nat) :
    (bufPeek s n).1 = s.content.take n := by
  unfold bufPeek
  split
  · rfl
  · split <;> rfl

/-- A stream whose reader ends cleanly never produces a non-EOF peek error. -/
theorem bufPeek_no_ioErr (s : InputStream) (n : Nat) (h : s.readErr = none)
    (e : String) : (bufPeek s n).2 ≠ some (PeekOutcome.ioErr e) := by
  unfold bufPeek
  rw [h]
  split <;> simp

/-- A successfully constructed gzip decoder starts out not closed. -/
theorem gzipNewReader_closed (input : List Nat) (g : GzipReader)
    (h : gzipNewReader input = Except.ok g) : g.closed = false := by
  unfold gzipNewReader at h
  split at h
  · exact Except.noConfusion h
  · split at h
    · injection h with h
      subst h
      rfl
    · exact Except.noConfusion h

/-- Whatever happens inside `DecompressStream`, the pool coming out is the
pool after the initial `Get`: the only `Put` in the function sits inside
the `closer` and runs at `Close` time, never during `DecompressStream`. -/
theorem DecompressStream_pool (archive : InputStream) (pool : List PeekBuffer) :
    (DecompressStream archive pool).2 = (poolGet pool).2 := by
  simp only [DecompressStream]
  split
  · rfl
  · split
    · rfl
    · split
      · split <;> rfl
      · rfl

/-- Success shape of `DecompressStream` when the detector answers
`Uncompressed`: the wrapper is the buffer itself, no decoder, non-nil closer. -/
theorem DecompressStream_uncompressed (archive : InputStream) (pool : List PeekBuffer)
    (he : ∀ e, (bufPeek archive 10).2 ≠ some (PeekOutcome.ioErr e))
    (hd : DetectCompression (bufPeek archive 10).1 = Uncompressed) :
    (DecompressStream archive pool).1 = Except.ok
      { buf := bufReset (poolGet pool).1 (some archive), gz := none,
        compression := Uncompressed, hasCloser := true } := by
  cases hp : (bufPeek archive 10).2 with
  | none =>
    simp only [DecompressStream, hp]
    rw [if_pos hd, hd]
  | some outcome =>
    cases outcome with
    | eof =>
      simp only [DecompressStream, hp]
      rw [if_pos hd, hd]
    | ioErr e => exact absurd hp (he e)

/-- Success shape of `DecompressStream` when the detector answers `Gzip`
and the decoder constructor succeeds: the wrapper carries the decoder. -/
theorem DecompressStream_gzip (archive : InputStream) (pool : List PeekBuffer)
    (g : GzipReader)
    (he : ∀ e, (bufPeek archive 10).2 ≠ some (PeekOutcome.ioErr e))
    (hd : DetectCompression (bufPeek archive 10).1 = Gzip)
    (hg : gzipNewReader archive.content = Except.ok g) :
    (DecompressStream archive pool).1 = Except.ok
      { buf := bufReset (poolGet pool).1 (some archive), gz := some g,
        compression := Gzip, hasCloser := true } := by
  cases hp : (bufPeek archive 10).2 with
  | none =>
    simp only [DecompressStream, hp]
    rw [hd, if_neg (by simp [Uncompressed, Gzip]), if_pos rfl, hg]
  | some outcome =>
    cases outcome with
    | eof =>
      simp only [DecompressStream, hp]
      rw [hd, if_neg (by simp [Uncompressed, Gzip]), if_pos rfl, hg]
    | ioErr e => exact absurd hp (he e)

/-- Failure shape of `DecompressStream` when the detector answers `Gzip`
but the decoder constructor fails: the error is propagated as-is. -/
theorem DecompressStream_gzip_err (archive : InputStream) (pool : List PeekBuffer)
    (e : GzipErr)
    (he : ∀ m, (bufPeek archive 10).2 ≠ some (PeekOutcome.ioErr m))
    (hd : DetectCompression (bufPeek archive 10).1 = Gzip)
    (hg : gzipNewReader archive.content = Except.error e) :
    (DecompressStream archive pool).1 = Except.error (DecompressErr.gzipErr e) := by
  cases hp : (bufPeek archive 10).2 with
  | none =>
    simp only [DecompressStream, hp]
    rw [hd, if_neg (by simp [Uncompressed, Gzip]), if_pos rfl, hg]
  | some outcome =>
    cases outcome with
    | eof =>
      simp only [DecompressStream, hp]
      rw [hd, if_neg (by simp [Uncompressed, Gzip]), if_pos rfl, hg]
    | ioErr m => exact absurd hp (he m)

/-- Inversion on a successful `DecompressStream`: the wrapper's closer is
non-nil, its exposed kind is exactly the detector's verdict on the peeked
bytes, and the decoder is present exactly on the gzip branch. -/
theorem DecompressStream_ok_inv (archive : InputStream) (pool : List PeekBuffer)
    (w : readCloserWrapper) (h : (DecompressStream archive pool).1 = Except.ok w) :
    w.hasCloser = true ∧
    w.compression = DetectCompression (bufPeek archive 10).1 ∧
    (w.compression = Uncompressed → w.gz = none) ∧
    (w.compression = Gzip →
      ∃ g, gzipNewReader archive.content = Except.ok g ∧ w.gz = some g) := by
  by_cases hio : ∀ m, (bufPeek archive 10).2 ≠ some (PeekOutcome.ioErr m)
  · rcases DetectCompression_cases (bufPeek archive 10).1 with hd | hd
    · rw [DecompressStream_uncompressed archive pool hio hd] at h
      injection h with h
      subst h
      exact ⟨rfl, hd.symm, fun _ => rfl,
        fun hg => absurd hg (by simp [Uncompressed, Gzip])⟩
    · cases hgz : gzipNewReader archive.content with
      | error e =>
        rw [DecompressStream_gzip_err archive pool e hio hd hgz] at h
        exact Except.noConfusion h
      | ok g =>
        rw [DecompressStream_gzip archive pool g hio hd hgz] at h
        injection h with h
        subst h
        exact ⟨rfl, hd.symm, fun hu => absurd hu (by simp [Uncompressed, Gzip]),
          fun _ => ⟨g, rfl, rfl⟩⟩
  · push_neg at hio
    obtain ⟨m, hm⟩ := hio
    have : (DecompressStream archive pool).1 = Except.error (DecompressErr.peekErr m) := by
      simp only [DecompressStream, hm]
    rw [this] at h
    exact Except.noConfusion h

/-! ### Concrete inputs used by counterexamples and witnesses -/

/-- The empty input stream: its reader ends cleanly with zero bytes. -/
def emptyStream : InputStream := { content := [], readErr := none }

/-- An input stream whose reader fails with a non-EOF error before
delivering any byte. -/
def errStream : InputStream := { content := [], readErr := some "disk read failed" }

/-- A well-formed gzip stream: a 10-byte header starting `1F 8B 08`
followed by a 1-byte body. -/
def gzStream : InputStream :=
  { content := [0x1F, 0x8B, 0x08, 0, 0, 0, 0, 0, 0, 0xFF, 0x61], readErr := none }

/-- The wrapper `DecompressStream` returns on `gzStream` with an empty pool. -/
def gzWrapper : readCloserWrapper :=
  { buf := bufReset newPeekBuffer (some gzStream),
    gz := some { payload := [0x61], closed := false },
    compression := Gzip, hasCloser := true }

/-- The wrapper `DecompressStream` returns on `emptyStream` with an empty pool. -/
def emptyWrapper : readCloserWrapper :=
  { buf := bufReset newPeekBuffer (some emptyStream), gz := none,
    compression := Uncompressed, hasCloser := true }

/-- Decompress a well-formed gzip stream, close the returned wrapper, and
report the exposed kind together with the decoder's closed flag after the
close (`none` if decompression failed or no decoder was constructed). -/
def closeProbe : Option (Compression × Option Bool) :=
  match (DecompressStream gzStream []).1 with
  | Except.ok w => some (GetCompression w, ((wrapperClose w []).2.1.gz).map GzipReader.closed)
  | Except.error _ => none

/-! ### The claims -/

/-- C1, counterexample: the round trip through `CompressStream(dest,
Uncompressed)` and `DecompressStream` does not return an uncompressed
stream for every payload — a payload that itself begins with the gzip
magic bytes is (mis)detected as gzip, and here decompression fails
outright instead of yielding the payload with kind `Uncompressed`. -/
theorem roundTrip_uncompressed_counterexample :
    CompressStream Uncompressed = Except.ok WriteCloser.writeCloserWrapper ∧
    (DecompressStream { content := writeAll WriteCloser.writeCloserWrapper [0x1F, 0x8B, 0x08]
                        readErr := none } []).1 =
      Except.error (DecompressErr.gzipErr GzipErr.unexpectedEOF) :=
  ⟨rfl, rfl⟩

/-- C1, amended: for every payload that does not begin with the gzip
signature bytes, writing it through the `Uncompressed` write stream and
decompressing the result yields a stream with exactly that content and
exposed kind `Uncompressed`. -/
theorem roundTrip_uncompressed (p : List Nat) (pool : List PeekBuffer)
    (ws : WriteCloser) (hw : CompressStream Uncompressed = Except.ok ws)
    (hp : p.take 3 ≠ gzipSignature) :
    ∃ w, (DecompressStream { content := writeAll ws p, readErr := none } pool).1 = Except.ok w ∧
      wrapperContent w = p ∧ GetCompression w = Uncompressed := by
  have hws : WriteCloser.writeCloserWrapper = ws := by
    rw [show CompressStream Uncompressed = Except.ok WriteCloser.writeCloserWrapper from rfl] at hw
    injection hw
  subst hws
  show ∃ w, (DecompressStream { content := p, readErr := none } pool).1 = Except.ok w ∧
    wrapperContent w = p ∧ GetCompression w = Uncompressed
  have hd : DetectCompression (bufPeek { content := p, readErr := none } 10).1 = Uncompressed := by
    rw [bufPeek_fst]
    show DetectCompression (p.take 10) = Uncompressed
    rw [DetectCompression_eq]
    by_cases hlen : (p.take 10).length < 3
    · rw [if_pos hlen]
    · rw [if_neg hlen, if_neg (by rw [List.take_take]; norm_num; exact hp)]
  exact ⟨_, DecompressStream_uncompressed _ pool (bufPeek_no_ioErr _ 10 rfl) hd, rfl, rfl⟩

/-- C1, witness: the amended round trip at the concrete payload `"ab"`. -/
theorem roundTrip_uncompressed_witness :
    ∃ w, (DecompressStream { content := writeAll WriteCloser.writeCloserWrapper [0x61, 0x62]
                             readErr := none } []).1 = Except.ok w ∧
      wrapperContent w = [0x61, 0x62] ∧ GetCompression w = Uncompressed :=
  roundTrip_uncompressed [0x61, 0x62] [] WriteCloser.writeCloserWrapper rfl (by decide)

/-- C2, counterexample: on a non-EOF peek failure the error is returned
but the checked-out buffer is not put back — starting from a pool holding
one free buffer, the pool after the failed call is empty. -/
theorem decompress_error_pool_counterexample :
    (DecompressStream errStream [newPeekBuffer]).1 =
      Except.error (DecompressErr.peekErr "disk read failed") ∧
    (DecompressStream errStream [newPeekBuffer]).2 = [] :=
  ⟨rfl, rfl⟩

/-- C2, amended: whenever `DecompressStream` returns an error, the
checked-out buffer is not released back to the pool — the pool coming out
is exactly the pool left right after the initial `Get`, and in particular
gains no buffer. -/
theorem decompress_error_pool (archive : InputStream) (pool : List PeekBuffer)
    (e : DecompressErr) (_h : (DecompressStream archive pool).1 = Except.error e) :
    (DecompressStream archive pool).2 = (poolGet pool).2 ∧
    ∀ b, b ∈ (DecompressStream archive pool).2 → b ∈ pool := by
  refine ⟨DecompressStream_pool archive pool, fun b hb => ?_⟩
  rw [DecompressStream_pool] at hb
  cases pool with
  | nil => exact absurd hb (by simp [poolGet])
  | cons x tl => exact List.mem_cons_of_mem x hb

/-- C2, witness: the amended statement at the failing concrete stream. -/
theorem decompress_error_pool_witness :
    (DecompressStream errStream [newPeekBuffer]).2 = (poolGet [newPeekBuffer]).2 ∧
    ∀ b, b ∈ (DecompressStream errStream [newPeekBuffer]).2 → b ∈ [newPeekBuffer] :=
  decompress_error_pool errStream [newPeekBuffer] (DecompressErr.peekErr "disk read failed") rfl

/-- C3, counterexample: decompressing a well-formed gzip stream and
closing the result leaves the constructed decoder unclosed — the closer
installed by `DecompressStream` only resets and repools the buffer and
never calls the decoder's own close. -/
theorem decompress_gzip_close_counterexample :
    closeProbe = some (Gzip, some false) := rfl

/-- C3, amended: closing the wrapper of a successful gzip decompress
returns no error, detaches the buffer from its stream and returns it to
the pool, but does not close the gzip decoder, which stays open. -/
theorem decompress_gzip_close (archive : InputStream) (pool pool2 : List PeekBuffer)
    (w : readCloserWrapper) (h : (DecompressStream archive pool).1 = Except.ok w)
    (hg : GetCompression w = Gzip) :
    (wrapperClose w pool2).1 = none ∧
    (wrapperClose w pool2).2.1.buf.attached = none ∧
    (wrapperClose w pool2).2.2 = poolPut ((wrapperClose w pool2).2.1.buf) pool2 ∧
    ∃ g, (wrapperClose w pool2).2.1.gz = some g ∧ g.closed = false := by
  obtain ⟨hc, _, _, hgz⟩ := DecompressStream_ok_inv archive pool w h
  obtain ⟨g, hok, hsome⟩ := hgz hg
  have hclosed := gzipNewReader_closed archive.content g hok
  obtain ⟨wb, wgz, wcomp, whc⟩ := w
  have hc2 : whc = true := hc
  subst hc2
  exact ⟨rfl, rfl, rfl, g, hsome, hclosed⟩

/-- C3, witness: the amended statement at the concrete gzip stream. -/
theorem decompress_gzip_close_witness :
    (wrapperClose gzWrapper []).1 = none ∧
    (wrapperClose gzWrapper []).2.1.buf.attached = none ∧
    (wrapperClose gzWrapper []).2.2 = poolPut ((wrapperClose gzWrapper []).2.1.buf) [] ∧
    ∃ g, (wrapperClose gzWrapper []).2.1.gz = some g ∧ g.closed = false :=
  decompress_gzip_close gzStream [] [] gzWrapper rfl rfl

/-- C4: every byte slice whose first three bytes are `1F 8B 08` is
detected as `Gzip`, whatever its length beyond three or the later bytes. -/
theorem detect_gzip_prefix (source : List Nat) (h : source.take 3 = gzipSignature) :
    DetectCompression source = Gzip := by
  have hlen : 3 ≤ source.length := by
    by_contra hc
    push_neg at hc
    have hlt := congrArg List.length h
    simp [List.length_take, gzipSignature] at hlt
    omega
  rw [DetectCompression_eq, if_neg (by omega), if_pos h]

/-- C4, witness: detection of the signature followed by arbitrary bytes. -/
theorem detect_gzip_prefix_witness :
    DetectCompression [0x1F, 0x8B, 0x08, 0x00, 0xFF] = Gzip :=
  detect_gzip_prefix [0x1F, 0x8B, 0x08, 0x00, 0xFF] (by decide)

/-- C5: every byte slice shorter than the sole registered signature (so,
of length below 3) is detected as `Uncompressed`. -/
theorem detect_short_input (source : List Nat) (h : source.length < 3) :
    DetectCompression source = Uncompressed := by
  rw [DetectCompression_eq, if_pos h]

/-- C5, witness: the two leading gzip bytes alone are not enough. -/
theorem detect_short_input_witness :
    DetectCompression [0x1F, 0x8B] = Uncompressed :=
  detect_short_input [0x1F, 0x8B] (by decide)

/-- C6: on the zero-length input stream `DecompressStream` succeeds and
returns a wrapper whose exposed kind is `Uncompressed` and whose content
is empty. -/
theorem decompress_empty_stream (pool : List PeekBuffer) :
    ∃ w, (DecompressStream emptyStream pool).1 = Except.ok w ∧
      GetCompression w = Uncompressed ∧ wrapperContent w = [] :=
  ⟨_, DecompressStream_uncompressed emptyStream pool
    (bufPeek_no_ioErr emptyStream 10 rfl) rfl, rfl, rfl⟩

/-- C7: for every kind other than `Uncompressed` and `Gzip`,
`CompressStream` returns no stream and fails with the unsupported-format
error naming that kind's extension, which is the empty string. -/
theorem compress_unsupported (compression : Compression)
    (h1 : compression ≠ Uncompressed) (h2 : compression ≠ Gzip) :
    CompressStream compression = Except.error (CompressErr.unsupported
      (String.append "unsupported compression format " (Extension compression))) ∧
    Extension compression = "" := by
  constructor
  · unfold CompressStream
    rw [if_neg h1, if_neg h2]
  · unfold Extension
    rw [if_neg h2]

/-- C7, witness: the unsupported kind `2`. -/
theorem compress_unsupported_witness :
    CompressStream 2 = Except.error (CompressErr.unsupported
      (String.append "unsupported compression format " (Extension 2))) ∧
    Extension 2 = "" :=
  compress_unsupported 2 (by decide) (by decide)

/-- C8: `Extension` is total — `"gz"` for `Gzip`, and the empty string for
`Uncompressed` and for every other (unregistered) kind value. -/
theorem extension_total :
    Extension Gzip = "gz" ∧ Extension Uncompressed = "" ∧
    ∀ compression : Compression, compression ≠ Gzip → Extension compression = "" := by
  refine ⟨rfl, rfl, fun c hc => ?_⟩
  unfold Extension
  rw [if_neg hc]

/-- C8, witness: the unknown kind `7` has the empty extension. -/
theorem extension_total_witness : Extension 7 = "" :=
  extension_total.2.2 7 (by decide)

/-- C9: detection gives the same answer under every iteration order of
the signature registry. -/
theorem detect_order_independent (regs1 regs2 : List (Compression × List Nat))
    (source : List Nat)
    (h1 : regs1.Perm signatureRegistry) (h2 : regs2.Perm signatureRegistry) :
    detectWithOrder regs1 source = detectWithOrder regs2 source := by
  have e1 : regs1 = signatureRegistry := List.perm_singleton.mp h1
  have e2 : regs2 = signatureRegistry := List.perm_singleton.mp h2
  rw [e1, e2]

/-- C9, witness: two (identical, as the registry is a singleton) orders at
the gzip signature itself. -/
theorem detect_order_independent_witness :
    detectWithOrder [(Gzip, gzipSignature)] [0x1F, 0x8B, 0x08] =
      detectWithOrder signatureRegistry [0x1F, 0x8B, 0x08] :=
  detect_order_independent [(Gzip, gzipSignature)] signatureRegistry [0x1F, 0x8B, 0x08]
    (List.Perm.refl _) (List.Perm.refl _)

/-- C10: on every success the exposed kind is the detector's verdict on
the 10-byte peek, hence `Uncompressed` or `Gzip`, and a gzip decoder is
constructed exactly when the exposed kind is `Gzip`. -/
theorem decompress_kind_detected (archive : InputStream) (pool : List PeekBuffer)
    (w : readCloserWrapper) (h : (DecompressStream archive pool).1 = Except.ok w) :
    GetCompression w = DetectCompression (bufPeek archive 10).1 ∧
    (GetCompression w = Uncompressed ∨ GetCompression w = Gzip) ∧
    (w.gz.isSome ↔ GetCompression w = Gzip) := by
  obtain ⟨hc, hcomp, hun, hgz⟩ := DecompressStream_ok_inv archive pool w h
  simp only [GetCompression]
  refine ⟨hcomp, ?_, ?_⟩
  · rw [hcomp]
    exact DetectCompression_cases _
  · constructor
    · intro hs
      rcases DetectCompression_cases (bufPeek archive 10).1 with hd | hd
      · rw [hun (hcomp.trans hd)] at hs
        exact absurd hs (by simp)
      · exact hcomp.trans hd
    · intro hgeq
      obtain ⟨g, _, hsome⟩ := hgz hgeq
      rw [hsome]
      rfl

/-- C10, witness: the property at the empty stream. -/
theorem decompress_kind_detected_witness :
    GetCompression emptyWrapper = DetectCompression (bufPeek emptyStream 10).1 ∧
    (GetCompression emptyWrapper = Uncompressed ∨ GetCompression emptyWrapper = Gzip) ∧
    (emptyWrapper.gz.isSome ↔ GetCompression emptyWrapper = Gzip) :=
  decompress_kind_detected emptyStream [] emptyWrapper rfl

end compression
